import Mathlib

/-!
# The k6 Jsonnet extension (`extension.go`)

A shallow embedding of the `XJsonnet` module of `k6/x/jsonnet` and the
properties of its template-evaluation engine.

The repository code is `extension.go`. Everything it calls lives in other
packages; those calls are embedded as follows.

* `vm.EvaluateFile`, `doublestar.Glob`, `gofakeit.Generate`, `os.ReadFile`
  and `path.Join` are fields of an environment `Env σ`, where `σ` is the state
  of the outside world (files on disk, the generator's random source).
* `jsonnet.MakeVM`, `vm.Importer`, `vm.ExtVar` and `vm.NativeFunction` only
  fill in the configuration of a VM; the configuration is the record `VM σ`.
* `json.Marshal`, `strings.Trim` and `strconv.FormatBool` are pure and are
  written out.
* The zap logger is a list of log entries in the `World`.
* To run the methods on concrete files, go-jsonnet is written out for a small
  fragment of the language (`Template`, `Machine`).

A Go function returning `(T, error)` is a function into `GoResult T`, a pair
whose second component is `none` for the nil error.
-/

namespace Jsonnet

/-! ## Go basics -/

/-- A Go `error`, identified with its message. -/
abbrev Error := String

/-- The pair `(T, error)` a Go function returns; `none` is the nil error. -/
abbrev GoResult (α : Type) := α × Option Error

/-- Assignment `m[k] = v` on a Go map, the map being the list of its entries:
an entry already stored under `k` is dropped and the new entry is added. -/
def mapSet {α : Type} (m : List (String × α)) (k : String) (v : α) : List (String × α) :=
  m.filter (fun e => e.1 != k) ++ [(k, v)]

/-- The keys of a Go map. -/
def mapKeys {α : Type} (m : List (String × α)) : List String := m.map Prod.fst

/-- The Go function `strings.Trim(s, cutset)`: `s` without its leading and
trailing characters that occur in `cutset`. -/
def Trim (s cutset : String) : String :=
  ⟨(s.data.rdropWhile (fun c => cutset.data.contains c)).dropWhile
    (fun c => cutset.data.contains c)⟩

/-- The Go function `strconv.FormatBool`. -/
def FormatBool (b : Bool) : String := if b then "true" else "false"

/-! ## `encoding/json` on the values a native function receives

go-jsonnet hands a native function its arguments as `nil`, `bool`, `float64`,
`string`, `[]interface{}` and `map[string]interface{}`. -/

/-- A `float64` as `strconv` formats it: not a number, an infinity, or a
finite value given by its sign and its shortest decimal form
`0.d₁d₂… × 10^dp` (no digits for zero). -/
inductive Float64 where
  | finite (neg : Bool) (digits : List (Fin 10)) (dp : Int)
  | nan
  | inf (neg : Bool)
deriving DecidableEq

/-- The Go value behind an `interface{}` argument; the entries of a map are
listed in the order of their keys, the order `json.Marshal` writes them in. -/
inductive GoValue where
  | null
  | bool (b : Bool)
  | number (f : Float64)
  | string (s : String)
  | array (xs : List GoValue)
  | object (fields : List (String × GoValue))

/-- The byte `'0' + n`. -/
def digitByte (n : Nat) : Char := Char.ofNat (48 + n)

/-- The table `hex` of `encoding/json`, indexed. -/
def hex (n : Nat) : Char := "0123456789abcdef".data.getD n '0'

/-- The table `htmlSafeSet` of `encoding/json` on a byte below `0x80`: the
byte is written as it is. -/
def htmlSafeSet (c : Char) : Bool :=
  decide (32 ≤ c.toNat) && c != '"' && c != '&' && c != '<' && c != '>' && c != '\\'

/-- What `appendString` of `encoding/json` (with `escapeHTML`) writes for one
character of a valid UTF-8 string. -/
def escapeRune (c : Char) : List Char :=
  if c.toNat < 128 then
    if htmlSafeSet c then [c]
    else if c = '\\' ∨ c = '"' then ['\\', c]
    else if c = '\x08' then ['\\', 'b']
    else if c = '\x0c' then ['\\', 'f']
    else if c = '\n' then ['\\', 'n']
    else if c = '\r' then ['\\', 'r']
    else if c = '\t' then ['\\', 't']
    else ['\\', 'u', '0', '0', hex (c.toNat / 16), hex (c.toNat % 16)]
  else if c = '\u2028' ∨ c = '\u2029' then ['\\', 'u', '2', '0', '2', hex (c.toNat % 16)]
  else [c]

/-- The characters of `s` as `appendString` writes them between the quotes. -/
def escapeString (s : String) : List Char := s.data.flatMap escapeRune

/-- The function `appendString` of `encoding/json`: a quoted JSON string. -/
def appendString (s : String) : List Char := '"' :: escapeString s ++ ['"']

/-- The function `fmtF` of `strconv` (`%f`: `-ddddddd.ddddd`). -/
def fmtF (neg : Bool) (d : List (Fin 10)) (dp : Int) (prec : Nat) : List Char :=
  (if neg then ['-'] else []) ++
  (if 0 < dp then
    (d.take (min d.length dp.toNat)).map (fun x => digitByte x.val) ++
      List.replicate (dp.toNat - min d.length dp.toNat) '0'
  else ['0']) ++
  (if 0 < prec then
    '.' :: (List.range prec).map (fun i =>
      if 0 ≤ dp + i ∧ dp + i < d.length then digitByte (d.getD (dp + i).toNat 0).val else '0')
  else [])

/-- The function `fmtE` of `strconv` (`%e`: `-d.ddddde±dd`). -/
def fmtE (neg : Bool) (d : List (Fin 10)) (dp : Int) (prec : Nat) : List Char :=
  let exp : Int := if d.length = 0 then 0 else dp - 1
  let e : Nat := exp.natAbs
  (if neg then ['-'] else []) ++
  [match d with
    | [] => '0'
    | d0 :: _ => digitByte d0.val] ++
  (if 0 < prec then
    '.' :: ((d.take (min d.length (prec + 1))).drop 1).map (fun x => digitByte x.val) ++
      List.replicate (prec + 1 - max 1 (min d.length (prec + 1))) '0'
  else []) ++
  ['e', if exp < 0 then '-' else '+'] ++
  (if e < 10 then ['0', digitByte e]
  else if e < 100 then [digitByte (e / 10), digitByte (e % 10)]
  else [digitByte (e / 100), digitByte (e / 10 % 10), digitByte (e % 10)])

/-- The clean-up of `e-09` to `e-9` in `floatEncoder`. -/
def cleanExponent (b : List Char) : List Char :=
  let n := b.length
  if 4 ≤ n ∧ b.getD (n - 4) ' ' = 'e' ∧ (b.getD (n - 3) ' ' = '-' ∨ b.getD (n - 3) ' ' = '+')
      ∧ b.getD (n - 2) ' ' = '0' then
    b.take (n - 2) ++ [b.getD (n - 1) ' ']
  else b

/-- The `floatEncoder` of `encoding/json` for a `float64`: an error for NaN
and the infinities, `%e` with the shortest precision below `1e-6` and from
`1e21` on, `%f` with the shortest precision otherwise. -/
def floatEncoder : Float64 → Except Error (List Char)
  | .nan => .error "json: unsupported value: NaN"
  | .inf neg => .error ("json: unsupported value: " ++ (if neg then "-Inf" else "+Inf"))
  | .finite neg d dp =>
    if d ≠ [] ∧ (dp ≤ -6 ∨ 22 ≤ dp) then
      .ok (cleanExponent (fmtE neg d dp (d.length - 1)))
    else
      .ok (fmtF neg d dp (d.length - dp).toNat)

mutual
/-- The encoder of `encoding/json` on a value. -/
def encode : GoValue → Except Error (List Char)
  | .null => .ok "null".data
  | .bool b => .ok (FormatBool b).data
  | .number f => floatEncoder f
  | .string s => .ok (appendString s)
  | .array xs =>
    match encodeElems xs with
    | .ok b => .ok ('[' :: b ++ [']'])
    | .error e => .error e
  | .object fields =>
    match encodeFields fields with
    | .ok b => .ok ('{' :: b ++ ['}'])
    | .error e => .error e
/-- The elements of an array, separated by commas. -/
def encodeElems : List GoValue → Except Error (List Char)
  | [] => .ok []
  | x :: xs =>
    match encode x, encodeElems xs with
    | .error e, _ => .error e
    | .ok _, .error e => .error e
    | .ok a, .ok b => .ok (if xs.isEmpty then a else a ++ ',' :: b)
/-- The entries of a map, `key:value`, separated by commas. -/
def encodeFields : List (String × GoValue) → Except Error (List Char)
  | [] => .ok []
  | (k, x) :: fs =>
    match encode x, encodeFields fs with
    | .error e, _ => .error e
    | .ok _, .error e => .error e
    | .ok a, .ok b =>
      .ok (if fs.isEmpty then appendString k ++ ':' :: a else appendString k ++ ':' :: a ++ ',' :: b)
end

/-- The Go function `json.Marshal`, its bytes read as a string. -/
def Marshal (v : GoValue) : GoResult String :=
  match encode v with
  | .ok b => (⟨b⟩, none)
  | .error e => ("", some e)

/-- A `float64` that is neither NaN nor an infinity. -/
def Float64.isFinite : Float64 → Bool
  | .finite _ _ _ => true
  | _ => false

mutual
/-- A value of JSON, as go-jsonnet passes it: every number in it is finite. -/
def GoValue.isJSON : GoValue → Bool
  | .null => true
  | .bool _ => true
  | .number f => f.isFinite
  | .string _ => true
  | .array xs => allJSON xs
  | .object fields => allFieldsJSON fields
/-- Every element is a value of JSON. -/
def allJSON : List GoValue → Bool
  | [] => true
  | x :: xs => x.isJSON && allJSON xs
/-- Every entry holds a value of JSON. -/
def allFieldsJSON : List (String × GoValue) → Bool
  | [] => true
  | (_, x) :: fs => x.isJSON && allFieldsJSON fs
end

/-! ## The configuration of a go-jsonnet VM -/

/-- The struct `jsonnet.NativeFunction`; `Func` may use the outside world. -/
structure NativeFunction (σ : Type) where
  Name : String
  Params : List String
  Func : List GoValue → σ → GoResult GoValue × σ

/-- The struct `jsonnet.FileImporter`. -/
structure FileImporter where
  JPaths : List String := []
deriving DecidableEq

/-- What a `jsonnet.VM` is configured with: the external variables set with
`ExtVar` (name and string value), the native functions registered with
`NativeFunction` (by name), and the importer. -/
structure VM (σ : Type) where
  ext : List (String × String)
  nativeFuncs : List (String × NativeFunction σ)
  importer : FileImporter

/-- The function `jsonnet.MakeVM`: no external variable, no native function,
the file importer. -/
def MakeVM (σ : Type) : VM σ := { ext := [], nativeFuncs := [], importer := {} }

/-- The method `vm.Importer`. -/
def VM.Importer {σ : Type} (vm : VM σ) (i : FileImporter) : VM σ := { vm with importer := i }

/-- The method `vm.ExtVar`: `vm.ext[key] = val`, a string value. -/
def VM.ExtVar {σ : Type} (vm : VM σ) (key val : String) : VM σ :=
  { vm with ext := mapSet vm.ext key val }

/-- The method `vm.NativeFunction`: `vm.nativeFuncs[f.Name] = f`. -/
def VM.NativeFunction {σ : Type} (vm : VM σ) (f : NativeFunction σ) : VM σ :=
  { vm with nativeFuncs := mapSet vm.nativeFuncs f.Name f }

/-! ## The outside world -/

/-- The calls of `extension.go` into other packages that depend on the outside
world, whose state is `σ`. -/
structure Env (σ : Type) where
  /-- The method `vm.EvaluateFile` of go-jsonnet. -/
  EvaluateFile : VM σ → String → σ → GoResult String × σ
  /-- The function `doublestar.Glob`. -/
  Glob : String → σ → GoResult (List String)
  /-- The function `gofakeit.Generate`. -/
  Generate : String → σ → GoResult String × σ
  /-- The function `os.ReadFile`, its bytes read as a string. -/
  ReadFile : String → σ → GoResult String
  /-- The function `path.Join` on two elements. -/
  Join : String → String → String

/-- The level of a log entry. -/
inductive Level where
  | info
  | error
deriving DecidableEq

/-- An entry written by the zap logger. -/
structure LogEntry where
  level : Level
  msg : String
deriving DecidableEq

/-- The world a method of `XJsonnet` runs in: the outside world, the log, and
the record of the calls made to `vm.EvaluateFile` so far (the VM and the file
of each call, oldest first). -/
structure World (σ : Type) where
  sys : σ
  log : List LogEntry
  evaluated : List (VM σ × String)

/-- The method `logger.Infof`, its message formatted. -/
def World.Infof {σ : Type} (w : World σ) (msg : String) : World σ :=
  { w with log := w.log ++ [⟨Level.info, msg⟩] }

/-- The method `logger.Errorf`, its message formatted. -/
def World.Errorf {σ : Type} (w : World σ) (msg : String) : World σ :=
  { w with log := w.log ++ [⟨Level.error, msg⟩] }

/-- The call `vm.EvaluateFile(filename)` in a world: the evaluator runs on the
outside world and the call is recorded. -/
def VM.EvaluateFile {σ : Type} (env : Env σ) (vm : VM σ) (filename : String) (w : World σ) :
    GoResult String × World σ :=
  ((env.EvaluateFile vm filename w.sys).1,
    { w with sys := (env.EvaluateFile vm filename w.sys).2,
             evaluated := w.evaluated ++ [(vm, filename)] })

/-! ## `extension.go` -/

/-- The methods of `XJsonnet`. -/
inductive Method where
  | processTemplate
  | generateTestData
  | loadTemplate
  | processMultipleTemplates
deriving DecidableEq

/-- The struct `modules.Exports` of k6. -/
structure ModuleExports where
  Default : Option Method
  Named : List (String × Method)
deriving DecidableEq

/-- The method `Exports` (lines 47-55). -/
def Exports : ModuleExports :=
  { Default := none
    Named := [("processTemplate", Method.processTemplate),
              ("generateTestData", Method.generateTestData),
              ("loadTemplate", Method.loadTemplate)] }

/-- A `(string, error)` returned where `(interface{}, error)` is the result
type, as in `return j.callGoFakeIt(...)` inside `Func`. -/
def asInterface {σ : Type} (r : GoResult String × σ) : GoResult GoValue × σ :=
  ((GoValue.string r.1.1, r.1.2), r.2)

/-- The method `callGoFakeIt` (lines 114-116). -/
def callGoFakeIt {σ : Type} (env : Env σ) (pattern : String) (s : σ) : GoResult String × σ :=
  env.Generate pattern s

/-- The method `createFakeFunction` (lines 99-111). go-jsonnet calls `Func`
with one argument for the one parameter; on an empty slice `x[0]` panics,
which is the error of the first case. -/
def createFakeFunction {σ : Type} (env : Env σ) : NativeFunction σ :=
  { Name := "fake"
    Params := ["x"]
    Func := fun x s =>
      match x with
      | [] => ((GoValue.null, some "runtime error: index out of range [0] with length 0"), s)
      | x0 :: _ =>
        match (Marshal x0).2 with
        | some err => ((GoValue.null, some err), s)
        | none => asInterface (callGoFakeIt env (Trim (Marshal x0).1 "\"") s) }

/-- The method `generateJsonFromTemplate` (lines 119-138). -/
def generateJsonFromTemplate {σ : Type} (env : Env σ) (templateFilePath : String)
    (generateTestData : Bool) (w : World σ) : String × World σ :=
  let vm := MakeVM σ
  let vm := vm.Importer {}
  let vm := vm.ExtVar "generateTestData" (FormatBool generateTestData)
  let vm := if generateTestData then vm.NativeFunction (createFakeFunction env) else vm
  match (vm.EvaluateFile env templateFilePath w).1.2 with
  | some err =>
    ("", (vm.EvaluateFile env templateFilePath w).2.Errorf
      ("Error evaluating template " ++ templateFilePath ++ ": " ++ err))
  | none => ((vm.EvaluateFile env templateFilePath w).1.1, (vm.EvaluateFile env templateFilePath w).2)

/-- The VM that `generateJsonFromTemplate` configures before it evaluates
(lines 120-129), as a value of its own. -/
def evaluationContext {σ : Type} (env : Env σ) (generateTestData : Bool) : VM σ :=
  if generateTestData then
    (((MakeVM σ).Importer {}).ExtVar "generateTestData"
      (FormatBool generateTestData)).NativeFunction (createFakeFunction env)
  else ((MakeVM σ).Importer {}).ExtVar "generateTestData" (FormatBool generateTestData)

/-- The method `processTemplate` (lines 58-63). -/
def processTemplate {σ : Type} (env : Env σ) (templatePath : String) (generateTestData : Bool)
    (w : World σ) : GoResult String × World σ :=
  let w := w.Infof ("Processing template: " ++ templatePath ++ ", generateTestData: "
    ++ FormatBool generateTestData)
  (((generateJsonFromTemplate env templatePath generateTestData w).1, none),
    (generateJsonFromTemplate env templatePath generateTestData w).2)

/-- The method `generateTestData` (lines 66-68). -/
def generateTestData {σ : Type} (env : Env σ) (templatePath : String) (w : World σ) :
    GoResult String × World σ :=
  processTemplate env templatePath true w

/-- The method `loadTemplate` (lines 71-77). -/
def loadTemplate {σ : Type} (env : Env σ) (templatePath : String) (w : World σ) :
    GoResult String × World σ :=
  match (env.ReadFile templatePath w.sys).2 with
  | some err => (("", some err), w)
  | none => (((env.ReadFile templatePath w.sys).1, none), w)

/-- One round of the loop of `processMultipleTemplates` (lines 90-93). -/
def processFile {σ : Type} (env : Env σ) (generateTestData : Bool)
    (acc : List (String × String) × World σ) (jsonnetFile : String) :
    List (String × String) × World σ :=
  (mapSet acc.1 jsonnetFile (generateJsonFromTemplate env jsonnetFile generateTestData acc.2).1,
    (generateJsonFromTemplate env jsonnetFile generateTestData acc.2).2)

/-- The method `processMultipleTemplates` (lines 80-96); the map is `none`
where the Go code returns a nil map. -/
def processMultipleTemplates {σ : Type} (env : Env σ) (templateRoot pattern : String)
    (generateTestData : Bool) (w : World σ) :
    (Option (List (String × String)) × Option Error) × World σ :=
  let w := w.Infof ("Processing multiple templates: root=" ++ templateRoot ++ ", pattern="
    ++ pattern)
  let fileSearchPath := env.Join templateRoot pattern
  match (env.Glob fileSearchPath w.sys).2 with
  | some globErr => ((none, some globErr), w)
  | none =>
    ((some (((env.Glob fileSearchPath w.sys).1.foldl (processFile env generateTestData) ([], w)).1),
      none),
     (((env.Glob fileSearchPath w.sys).1.foldl (processFile env generateTestData) ([], w)).2))

/-- The world in which `processMultipleTemplates` evaluates the file that
comes after the files `done` of the enumeration. -/
def batchWorld {σ : Type} (env : Env σ) (templateRoot pattern : String)
    (generateTestData : Bool) (w : World σ) (done : List String) : World σ :=
  (done.foldl (processFile env generateTestData)
    ([], w.Infof ("Processing multiple templates: root=" ++ templateRoot ++ ", pattern="
      ++ pattern))).2

/-- Two VMs that differ at most in the value of the external variable
`generateTestData` and in the native function registered as `fake`: they have
the same importer, the same value for every other external variable and the
same function under every other name. -/
def sameOutsideMode {σ : Type} (vm vm' : VM σ) : Prop :=
  vm.importer = vm'.importer ∧
  (∀ name, name ≠ "generateTestData" → vm.ext.lookup name = vm'.ext.lookup name) ∧
  (∀ name, name ≠ "fake" → vm.nativeFuncs.lookup name = vm'.nativeFuncs.lookup name)

/-- The evaluation of the file `path` in the state `s` depends neither on the
external variable `generateTestData` nor on the native function `fake`: the
evaluator returns the same result and leaves the same state in any two VMs
that differ at most in these two. -/
def modeBlind {σ : Type} (env : Env σ) (path : String) (s : σ) : Prop :=
  ∀ vm vm' : VM σ, sameOutsideMode vm vm' →
    env.EvaluateFile vm path s = env.EvaluateFile vm' path s

/-- The quote-stripping step in the words of the specification: a text that
stands between a pair of double quotes loses exactly that pair, one leading and
one trailing quote; any other text is left as it is. -/
def stripQuotePair (text : String) : String :=
  match text.data with
  | '"' :: rest => if rest.getLast? = some '"' then ⟨rest.dropLast⟩ else text
  | _ => text

/-! ## go-jsonnet on a fragment of the language

The evaluator is not part of the repository. To run the methods on concrete
templates, go-jsonnet is written out for the string-valued templates built from
string literals, `std.extVar`, calls of `std.native` functions,
`if a == b then c else d` and `if std.native(name) != null then c else d`. -/

/-- A template of the fragment. -/
inductive Template where
  /-- A string literal. -/
  | str (s : String)
  /-- The expression `std.extVar(name)`. -/
  | extVar (name : String)
  /-- The expression `std.native(name)(arg)`. -/
  | native (name : String) (arg : Template)
  /-- The expression `if a == b then t else e`. -/
  | ifEq (a b t e : Template)
  /-- The expression `if std.native(name) != null then t else e`. -/
  | ifNative (name : String) (t e : Template)
deriving DecidableEq

/-- The evaluation of a template in a VM. `std.extVar` fails on a variable the
VM does not have; `std.native` of a name that is not registered is `null`, and
calling it fails; a registered function receives its argument as a Go value and
its error fails the evaluation. An error text is the first line of go-jsonnet's
message, without the stack trace that follows it. -/
def Template.eval {σ : Type} (vm : VM σ) : Template → σ → GoResult String × σ
  | .str s, st => ((s, none), st)
  | .extVar name, st =>
    match vm.ext.lookup name with
    | some v => ((v, none), st)
    | none => (("", some ("RUNTIME ERROR: Undefined external variable: " ++ name)), st)
  | .native name arg, st =>
    match vm.nativeFuncs.lookup name with
    | none => (("", some "RUNTIME ERROR: Unexpected type null, expected function"), st)
    | some f =>
      match arg.eval vm st with
      | ((_, some err), st1) => (("", some err), st1)
      | ((a, none), st1) =>
        match f.Func [GoValue.string a] st1 with
        | ((_, some err), st2) => (("", some ("RUNTIME ERROR: " ++ err)), st2)
        | ((GoValue.string r, none), st2) => ((r, none), st2)
        | ((_, none), st2) => (("", some "RUNTIME ERROR: not a string"), st2)
  | .ifEq a b t e, st =>
    match a.eval vm st with
    | ((_, some err), st1) => (("", some err), st1)
    | ((x, none), st1) =>
      match b.eval vm st1 with
      | ((_, some err), st2) => (("", some err), st2)
      | ((y, none), st2) => if x = y then t.eval vm st2 else e.eval vm st2
  | .ifNative name t e, st =>
    match vm.nativeFuncs.lookup name with
    | some _ => t.eval vm st
    | none => e.eval vm st

/-- A template that neither reads the external variable `generateTestData`
nor refers to the native function `fake`. -/
def Template.modeFree : Template → Bool
  | .str _ => true
  | .extVar name => name != "generateTestData"
  | .native name arg => name != "fake" && arg.modeFree
  | .ifEq a b t e => a.modeFree && b.modeFree && t.modeFree && e.modeFree
  | .ifNative name t e => name != "fake" && t.modeFree && e.modeFree

/-- What go-jsonnet writes for one character of a string it manifests. -/
def unparseRune (c : Char) : List Char :=
  if c = '"' then ['\\', '"']
  else if c = '\\' then ['\\', '\\']
  else if c = '\x08' then ['\\', 'b']
  else if c = '\x0c' then ['\\', 'f']
  else if c = '\n' then ['\\', 'n']
  else if c = '\r' then ['\\', 'r']
  else if c = '\t' then ['\\', 't']
  else if c.toNat < 32 ∨ (127 ≤ c.toNat ∧ c.toNat ≤ 159) then
    ['\\', 'u', '0', '0', hex (c.toNat / 16), hex (c.toNat % 16)]
  else [c]

/-- The JSON document go-jsonnet returns for a string value: the quoted string
and a newline. -/
def manifestString (s : String) : String :=
  ⟨'"' :: s.data.flatMap unparseRune ++ ['"', '\n']⟩

/-- A machine to run on: the template files on disk, each with its text and
the template it parses to (`none` for a text with a syntax error), the answer
of `doublestar.Glob` to each search path, and the patterns the generator was
called with so far. -/
structure Machine where
  files : List (String × String × Option Template)
  globs : List (String × GoResult (List String))
  patterns : List String
deriving DecidableEq

/-- The method `vm.EvaluateFile` on the fragment. -/
def Machine.EvaluateFile (vm : VM Machine) (filename : String) (m : Machine) :
    GoResult String × Machine :=
  match m.files.lookup filename with
  | none => (("", some ("open " ++ filename ++ ": no such file or directory")), m)
  | some (_, none) => (("", some (filename ++ ":1:1 Unexpected end of file")), m)
  | some (_, some t) =>
    match t.eval vm m with
    | ((_, some err), m1) => (("", some err), m1)
    | ((v, none), m1) => ((manifestString v, none), m1)

/-- The environment of a machine. The generator returns its pattern, as
`gofakeit.Generate` does on a text without placeholders, and the pattern is
recorded; `path.Join` is written for two clean, non-empty elements. -/
def Machine.env : Env Machine :=
  { EvaluateFile := Machine.EvaluateFile
    Glob := fun path m =>
      match m.globs.lookup path with
      | some r => r
      | none => ([], none)
    Generate := fun pattern m => ((pattern, none), { m with patterns := m.patterns ++ [pattern] })
    ReadFile := fun path m =>
      match m.files.lookup path with
      | some (text, _) => (text, none)
      | none => ("", some ("open " ++ path ++ ": no such file or directory"))
    Join := fun root pattern => root ++ "/" ++ pattern }

/-- A world with an empty log in which nothing was evaluated yet. -/
def World.start {σ : Type} (s : σ) : World σ := { sys := s, log := [], evaluated := [] }

/-- A machine with five template files under `templates`, of which
`broken.jsonnet` has a syntax error, and one under `lib`. -/
def demoMachine : Machine :=
  { files :=
      [("templates/user.jsonnet", "std.native('fake')('name')",
          some (.native "fake" (.str "name"))),
       ("templates/mode.jsonnet", "std.extVar('generateTestData')",
          some (.extVar "generateTestData")),
       ("templates/probe.jsonnet", "if std.native('fake') != null then 'with' else 'without'",
          some (.ifNative "fake" (.str "with") (.str "without"))),
       ("templates/broken.jsonnet", "if", none),
       ("templates/plain.jsonnet", "'fixed'", some (.str "fixed")),
       ("lib/greeting.jsonnet",
          "if std.native('upper') != null then std.native('upper')(std.extVar('name')) else 'hello'",
          some (.ifNative "upper" (.native "upper" (.extVar "name")) (.str "hello")))]
    globs :=
      [("templates/*.jsonnet",
          (["templates/broken.jsonnet", "templates/mode.jsonnet", "templates/plain.jsonnet",
            "templates/probe.jsonnet", "templates/user.jsonnet"], none)),
       ("templates/[", ([], some "syntax error in pattern"))]
    patterns := [] }

/-! ## `strings.Trim` with the cutset `"` -/

/-- The test `strings.Trim` runs with the cutset `"`. -/
theorem cutset_contains (c : Char) : ("\"".data.contains c) = (c == '"') := by
  simp only [List.contains, List.elem]
  cases (c == '"') <;> rfl

/-- A text that neither starts nor ends with `"` is left as it is. -/
theorem Trim_eq_self (l : List Char) (hhead : l.head? ≠ some '"')
    (hlast : l.getLast? ≠ some '"') : Trim ⟨l⟩ "\"" = ⟨l⟩ := by
  have hp : (fun c : Char => "\"".data.contains c) = fun c => c == '"' :=
    funext cutset_contains
  unfold Trim
  rw [hp]
  congr 1
  have h1 : l.rdropWhile (fun c => c == '"') = l := by
    rw [List.rdropWhile_eq_self_iff]
    intro hl hq
    apply hlast
    rw [List.getLast?_eq_getLast _ hl]
    simpa using hq
  rw [h1]
  cases l with
  | nil => rfl
  | cons a t =>
    have ha : a ≠ '"' := by simpa using hhead
    rw [List.dropWhile_cons_of_neg (by simpa using ha)]

/-- A text between two quotes loses exactly the two quotes when what stands
between them neither starts nor ends with `"`. -/
theorem Trim_quoted (body : List Char) (hhead : body.head? ≠ some '"')
    (hlast : body.getLast? ≠ some '"') : Trim ⟨'"' :: body ++ ['"']⟩ "\"" = ⟨body⟩ := by
  have hp : (fun c : Char => "\"".data.contains c) = fun c => c == '"' :=
    funext cutset_contains
  unfold Trim
  rw [hp]
  congr 1
  have h0 : ('"' :: body ++ ['"']) = ('"' :: body) ++ ['"'] := rfl
  simp only [h0]
  rw [List.rdropWhile_concat_pos _ _ _ (by simp)]
  cases body with
  | nil => simp [List.rdropWhile_singleton]
  | cons a t =>
    have ha : a ≠ '"' := by simpa using hhead
    have h1 : ('"' :: a :: t).rdropWhile (fun c => c == '"') = '"' :: a :: t := by
      rw [List.rdropWhile_eq_self_iff]
      intro hl hq
      apply hlast
      have : ('"' :: a :: t).getLast hl = (a :: t).getLast (by simp) := by simp
      rw [this] at hq
      rw [List.getLast?_eq_getLast _ (by simp)]
      simpa using hq
    rw [h1, List.dropWhile_cons_of_pos (by simp),
      List.dropWhile_cons_of_neg (by simpa using ha)]

/-! ## The shape of a JSON text -/

theorem hex_ne_quote (n : Nat) : hex n ≠ '"' := by
  unfold hex
  by_cases h : n < 16
  · interval_cases n <;> decide
  · rw [List.getD_eq_default _ _ (by simpa using h)]
    decide

theorem digitByte_ne_quote (n : Nat) : digitByte n ≠ '"' := by
  unfold digitByte
  intro h
  have h2 := congrArg Char.toNat h
  by_cases hv : (48 + n).isValidChar
  · rw [Char.ofNat, dif_pos hv] at h2
    have : (48 + n : Nat) = 34 := by simpa [Char.ofNatAux, Char.toNat] using h2
    omega
  · rw [Char.ofNat, dif_neg hv] at h2
    revert h2
    decide

theorem escapeRune_ne_nil (c : Char) : escapeRune c ≠ [] := by
  unfold escapeRune
  split_ifs <;> simp

theorem escapeRune_head (c : Char) : (escapeRune c).head? ≠ some '"' := by
  unfold escapeRune
  split_ifs with h1 h2 <;> try (simp; done)
  · simp only [htmlSafeSet, Bool.and_eq_true, bne_iff_ne, ne_eq] at h2
    simpa using h2.1.1.1.1.2
  · intro h
    simp only [List.head?_cons, Option.some.injEq] at h
    rw [h] at h1
    exact h1 (by decide)

theorem escapeRune_getLast (c : Char) : (escapeRune c).getLast? = some '"' ↔ c = '"' := by
  constructor
  · unfold escapeRune
    split_ifs with h1 h2 h3 <;>
      simp [List.getLast?, hex_ne_quote]
  · rintro rfl
    decide

theorem escapeString_head (s : String) : (escapeString s).head? ≠ some '"' := by
  unfold escapeString
  cases s.data with
  | nil => simp
  | cons a t =>
    rw [List.flatMap_cons, List.head?_append_of_ne_nil _ (escapeRune_ne_nil a)]
    exact escapeRune_head a

theorem escapeString_getLast (s : String) :
    (escapeString s).getLast? = some '"' ↔ s.data.getLast? = some '"' := by
  unfold escapeString
  induction s.data using List.reverseRecOn with
  | nil => simp
  | append_singleton l a _ =>
    rw [List.flatMap_append, List.flatMap_singleton,
      List.getLast?_append_of_ne_nil _ (escapeRune_ne_nil a), escapeRune_getLast]
    simp

/-- No character of a `%f` text is a quote. -/
theorem fmtF_no_quote (neg : Bool) (d : List (Fin 10)) (dp : Int) (prec : Nat) :
    ∀ c ∈ fmtF neg d dp prec, c ≠ '"' := by
  intro c hc
  unfold fmtF at hc
  simp only [List.mem_append] at hc
  rcases hc with (hc | hc) | hc
  · split_ifs at hc
    · simp at hc; rw [hc]; decide
    · simp at hc
  · split_ifs at hc
    · simp only [List.mem_append, List.mem_map, List.mem_replicate] at hc
      rcases hc with ⟨x, -, rfl⟩ | ⟨-, rfl⟩
      · exact digitByte_ne_quote _
      · decide
    · simp at hc; rw [hc]; decide
  · split_ifs at hc
    · simp only [List.mem_cons, List.mem_map, List.mem_range] at hc
      rcases hc with rfl | ⟨i, -, rfl⟩
      · decide
      · split_ifs
        · exact digitByte_ne_quote _
        · decide
    · simp at hc

/-- No character of a `%e` text is a quote. -/
theorem fmtE_no_quote (neg : Bool) (d : List (Fin 10)) (dp : Int) (prec : Nat) :
    ∀ c ∈ fmtE neg d dp prec, c ≠ '"' := by
  intro c hc
  unfold fmtE at hc
  simp only [List.mem_append] at hc
  rcases hc with (((hc | hc) | hc) | hc) | hc
  · split_ifs at hc
    · simp at hc; rw [hc]; decide
    · simp at hc
  · cases d with
    | nil => simp at hc; rw [hc]; decide
    | cons a t => simp at hc; rw [hc]; exact digitByte_ne_quote _
  · split_ifs at hc
    · simp only [List.mem_cons, List.mem_append, List.mem_map, List.mem_replicate] at hc
      rcases hc with (rfl | ⟨x, -, rfl⟩) | ⟨-, rfl⟩
      · decide
      · exact digitByte_ne_quote _
      · decide
    · simp at hc
  · simp only [List.mem_cons, List.mem_singleton, List.not_mem_nil, or_false] at hc
    rcases hc with rfl | rfl
    · decide
    · split_ifs <;> decide
  · split_ifs at hc
    all_goals simp only [List.mem_cons, List.mem_singleton, List.not_mem_nil, or_false] at hc
    all_goals
      rcases hc with rfl | rfl | rfl <;> first | decide | exact digitByte_ne_quote _

/-- The clean-up of the exponent adds no quote. -/
theorem cleanExponent_no_quote (b : List Char) (hb : ∀ c ∈ b, c ≠ '"') :
    ∀ c ∈ cleanExponent b, c ≠ '"' := by
  intro c hc
  unfold cleanExponent at hc
  simp only at hc
  split_ifs at hc with h
  · simp only [List.mem_append, List.mem_singleton] at hc
    rcases hc with hc | rfl
    · exact hb c (List.mem_of_mem_take hc)
    · have hlt : b.length - 1 < b.length := by omega
      rw [List.getD_eq_getElem _ _ hlt]
      exact hb _ (List.getElem_mem _)
  · exact hb c hc

/-- No character of the JSON text of a number is a quote. -/
theorem floatEncoder_no_quote (f : Float64) (b : List Char) (h : floatEncoder f = .ok b) :
    ∀ c ∈ b, c ≠ '"' := by
  cases f with
  | nan => simp [floatEncoder] at h
  | inf neg => simp [floatEncoder] at h
  | finite neg d dp =>
    simp only [floatEncoder] at h
    split_ifs at h
    · injection h with h
      rw [← h]
      exact cleanExponent_no_quote _ (fmtE_no_quote neg d dp _)
    · injection h with h
      rw [← h]
      exact fmtF_no_quote neg d dp _

/-- A text without a quote neither starts nor ends with one. -/
theorem ends_of_no_quote (b : List Char) (h : ∀ c ∈ b, c ≠ '"') :
    b.head? ≠ some '"' ∧ b.getLast? ≠ some '"' :=
  ⟨fun hh => h _ (List.mem_of_mem_head? hh) rfl, fun hl => h _ (List.mem_of_mem_getLast? hl) rfl⟩

/-- The JSON text of a value that is not a string neither starts nor ends with
a quote. -/
theorem encode_ends (v : GoValue) (hv : ∀ s, v ≠ GoValue.string s) (b : List Char)
    (h : encode v = .ok b) : b.head? ≠ some '"' ∧ b.getLast? ≠ some '"' := by
  cases v with
  | null =>
    simp only [encode, Except.ok.injEq] at h
    rw [← h]; decide
  | bool x =>
    simp only [encode, Except.ok.injEq] at h
    rw [← h]; cases x <;> decide
  | number f =>
    simp only [encode] at h
    exact ends_of_no_quote b (floatEncoder_no_quote f b h)
  | string s => exact absurd rfl (hv s)
  | array xs =>
    simp only [encode] at h
    split at h
    · injection h with h
      rw [← h]
      refine ⟨by simp, ?_⟩
      rw [List.getLast?_concat]
      simp
    · simp at h
  | object fs =>
    simp only [encode] at h
    split at h
    · injection h with h
      rw [← h]
      refine ⟨by simp, ?_⟩
      rw [List.getLast?_concat]
      simp
    · simp at h

/-- A finite number has a JSON text. -/
theorem floatEncoder_ok (f : Float64) (h : f.isFinite = true) : ∃ b, floatEncoder f = .ok b := by
  cases f with
  | finite neg d dp =>
    simp only [floatEncoder]
    split_ifs
    · exact ⟨_, rfl⟩
    · exact ⟨_, rfl⟩
  | nan => simp [Float64.isFinite] at h
  | inf neg => simp [Float64.isFinite] at h

mutual
/-- A value of JSON has a JSON text. -/
theorem encode_ok : ∀ v : GoValue, v.isJSON = true → ∃ b, encode v = .ok b
  | .null, _ => ⟨_, rfl⟩
  | .bool _, _ => ⟨_, rfl⟩
  | .number f, h => by
    simp only [GoValue.isJSON] at h
    simpa only [encode] using floatEncoder_ok f h
  | .string _, _ => ⟨_, rfl⟩
  | .array xs, h => by
    simp only [GoValue.isJSON] at h
    obtain ⟨b, hb⟩ := encodeElems_ok xs h
    simp only [encode, hb]
    exact ⟨_, rfl⟩
  | .object fs, h => by
    simp only [GoValue.isJSON] at h
    obtain ⟨b, hb⟩ := encodeFields_ok fs h
    simp only [encode, hb]
    exact ⟨_, rfl⟩
/-- The elements of an array of values of JSON have a JSON text. -/
theorem encodeElems_ok : ∀ xs : List GoValue, allJSON xs = true → ∃ b, encodeElems xs = .ok b
  | [], _ => ⟨_, rfl⟩
  | x :: xs, h => by
    simp only [allJSON, Bool.and_eq_true] at h
    obtain ⟨a, ha⟩ := encode_ok x h.1
    obtain ⟨b, hb⟩ := encodeElems_ok xs h.2
    simp only [encodeElems, ha, hb]
    exact ⟨_, rfl⟩
/-- The entries of a map of values of JSON have a JSON text. -/
theorem encodeFields_ok : ∀ fs : List (String × GoValue), allFieldsJSON fs = true →
    ∃ b, encodeFields fs = .ok b
  | [], _ => ⟨_, rfl⟩
  | (k, x) :: fs, h => by
    simp only [allFieldsJSON, Bool.and_eq_true] at h
    obtain ⟨a, ha⟩ := encode_ok x h.1
    obtain ⟨b, hb⟩ := encodeFields_ok fs h.2
    simp only [encodeFields, ha, hb]
    exact ⟨_, rfl⟩
end

/-- A text between a pair of quotes loses exactly the pair. -/
theorem stripQuotePair_quoted (body : List Char) :
    stripQuotePair ⟨'"' :: body ++ ['"']⟩ = ⟨body⟩ := by
  simp [stripQuotePair, List.getLast?_concat]

/-- A text that does not start with a quote is left as it is. -/
theorem stripQuotePair_unquoted (l : List Char) (h : l.head? ≠ some '"') :
    stripQuotePair ⟨l⟩ = ⟨l⟩ := by
  unfold stripQuotePair
  split
  · rename_i rest heq
    simp only at heq
    rw [heq] at h
    simp at h
  · rfl

/-- What `Func` does once `json.Marshal` has succeeded. -/
theorem Func_of_marshal {σ : Type} (env : Env σ) (v : GoValue) (s : σ)
    (hok : (Marshal v).2 = none) :
    (createFakeFunction env).Func [v] s
      = asInterface (env.Generate (Trim (Marshal v).1 "\"") s) := by
  simp only [createFakeFunction, callGoFakeIt]
  rw [hok]

/-- The JSON text of a string. -/
theorem Marshal_string (str : String) :
    Marshal (GoValue.string str) = (⟨'"' :: escapeString str ++ ['"']⟩, none) := by
  simp [Marshal, encode, appendString]

/-- The JSON text of a value that is not a string neither starts nor ends with
a quote. -/
theorem Marshal_ends (v : GoValue) (hv : ∀ str, v ≠ GoValue.string str)
    (hok : (Marshal v).2 = none) :
    (Marshal v).1.data.head? ≠ some '"' ∧ (Marshal v).1.data.getLast? ≠ some '"' := by
  unfold Marshal at hok ⊢
  cases h : encode v with
  | ok b => simpa using encode_ends v hv b h
  | error e => rw [h] at hok; simp at hok

/-- C6: for a string argument none of whose characters `json.Marshal` escapes,
the JSON text is the string between two quotes and the bridge returns what the
generator returns on the string itself: its string as it is, and its error. -/
theorem fake_plain_string_forwards_pattern {σ : Type} (env : Env σ) (str : String) (s : σ)
    (hplain : ∀ c ∈ str.data, escapeRune c = [c]) :
    Marshal (GoValue.string str) = (⟨'"' :: str.data ++ ['"']⟩, none) ∧
    (createFakeFunction env).Func [GoValue.string str] s = asInterface (env.Generate str s) ∧
    ((createFakeFunction env).Func [GoValue.string str] s).1
      = (GoValue.string (env.Generate str s).1.1, (env.Generate str s).1.2) := by
  have hesc : escapeString str = str.data := by
    unfold escapeString
    generalize str.data = l at hplain
    induction l with
    | nil => rfl
    | cons a t ih =>
      rw [List.flatMap_cons, hplain a (List.mem_cons_self _ _),
        ih (fun c hc => hplain c (List.mem_cons_of_mem _ hc))]
      rfl
  have hm : Marshal (GoValue.string str) = (⟨'"' :: str.data ++ ['"']⟩, none) := by
    rw [Marshal_string, hesc]
  have hhead := escapeString_head str
  have hlast : (escapeString str).getLast? ≠ some '"' := by
    intro h
    have hl := (escapeString_getLast str).1 h
    have hq := hplain '"' (List.mem_of_mem_getLast? hl)
    revert hq
    decide
  rw [hesc] at hhead hlast
  have hf : (createFakeFunction env).Func [GoValue.string str] s
      = asInterface (env.Generate str s) := by
    rw [Func_of_marshal env _ s (by rw [hm]), hm]
    simp only
    rw [Trim_quoted str.data hhead hlast]
  exact ⟨hm, hf, by rw [hf]; rfl⟩

/-- Away from the strings that end in a double quote the bridge does strip
exactly one pair: for an argument whose JSON serialization succeeds and that is
not a string ending in a double quote, the pattern handed to the generator is
the JSON text without its one pair of surrounding quotes when the argument is
a string, and the JSON text as it is otherwise. -/
theorem fake_strips_one_quote_pair {σ : Type} (env : Env σ) (v : GoValue) (s : σ)
    (hok : (Marshal v).2 = none)
    (hend : ∀ str, v = GoValue.string str → str.data.getLast? ≠ some '"') :
    Trim (Marshal v).1 "\"" = stripQuotePair (Marshal v).1 ∧
    (createFakeFunction env).Func [v] s
      = asInterface (env.Generate (stripQuotePair (Marshal v).1) s) ∧
    (∀ str, v = GoValue.string str →
      (Marshal v).1 = "\"" ++ stripQuotePair (Marshal v).1 ++ "\"") ∧
    ((∀ str, v ≠ GoValue.string str) → stripQuotePair (Marshal v).1 = (Marshal v).1) := by
  have key : Trim (Marshal v).1 "\"" = stripQuotePair (Marshal v).1 := by
    by_cases hv : ∃ str, v = GoValue.string str
    · obtain ⟨str, rfl⟩ := hv
      rw [Marshal_string]
      simp only
      rw [stripQuotePair_quoted]
      apply Trim_quoted _ (escapeString_head str)
      intro h
      exact hend str rfl ((escapeString_getLast str).1 h)
    · have hv2 : ∀ str, v ≠ GoValue.string str := fun str h => hv ⟨str, h⟩
      have hends := Marshal_ends v hv2 hok
      rw [Trim_eq_self _ hends.1 hends.2, stripQuotePair_unquoted _ hends.1]
  refine ⟨key, ?_, ?_, ?_⟩
  · rw [Func_of_marshal env v s hok, key]
  · rintro str rfl
    rw [Marshal_string]
    simp only
    rw [stripQuotePair_quoted]
    apply String.ext
    simp
  · intro hv
    exact stripQuotePair_unquoted _ (Marshal_ends v hv hok).1

/-! ## The evaluation context and the single-template evaluator -/

/-- The external variables and native functions of the configured VM. -/
theorem evaluationContext_eq {σ : Type} (env : Env σ) (flag : Bool) :
    evaluationContext env flag =
      { ext := [("generateTestData", if flag then "true" else "false")]
        nativeFuncs := if flag then [("fake", createFakeFunction env)] else []
        importer := {} } := by
  cases flag <;> rfl

/-- The method `generateJsonFromTemplate` in closed form: one call of the
evaluator on the configured VM, recorded; the text on success, the empty
string and an error entry in the log on failure. -/
theorem generateJsonFromTemplate_eq {σ : Type} (env : Env σ) (path : String) (flag : Bool)
    (w : World σ) :
    generateJsonFromTemplate env path flag w =
      ((match (env.EvaluateFile (evaluationContext env flag) path w.sys).1.2 with
        | none => (env.EvaluateFile (evaluationContext env flag) path w.sys).1.1
        | some _ => ""),
       { sys := (env.EvaluateFile (evaluationContext env flag) path w.sys).2
         log := w.log ++
           (match (env.EvaluateFile (evaluationContext env flag) path w.sys).1.2 with
            | none => []
            | some err => [⟨Level.error, "Error evaluating template " ++ path ++ ": " ++ err⟩])
         evaluated := w.evaluated ++ [(evaluationContext env flag, path)] }) := by
  cases flag <;>
    simp only [generateJsonFromTemplate, evaluationContext, VM.EvaluateFile, World.Errorf,
      if_true, Bool.false_eq_true, if_false] <;>
    split <;> rename_i h <;> simp [h]

/-- C1: `processTemplate` returns a nil error for every path and flag; it calls
the evaluator once, and its string is the evaluator's text when the evaluator
returns no error and the empty string when it returns one. -/
theorem processTemplate_returns_json_or_empty {σ : Type} (env : Env σ) (path : String)
    (flag : Bool) (w : World σ) :
    ∃ vm : VM σ,
      (processTemplate env path flag w).2.evaluated = w.evaluated ++ [(vm, path)] ∧
      (processTemplate env path flag w).2.sys = (env.EvaluateFile vm path w.sys).2 ∧
      (processTemplate env path flag w).1.2 = none ∧
      (processTemplate env path flag w).1.1 =
        (match (env.EvaluateFile vm path w.sys).1.2 with
         | none => (env.EvaluateFile vm path w.sys).1.1
         | some _ => "") := by
  refine ⟨evaluationContext env flag, ?_, ?_, rfl, ?_⟩ <;>
    simp only [processTemplate, generateJsonFromTemplate_eq, World.Infof]

/-- C2: the VM that `generateJsonFromTemplate` hands to the evaluator has the
native function `fake` registered exactly when the flag is true, and then it is
the function of `createFakeFunction`; with the flag false no native function is
registered. -/
theorem generateJsonFromTemplate_fake_iff_flag {σ : Type} (env : Env σ) (path : String)
    (flag : Bool) (w : World σ) :
    ∃ vm : VM σ,
      (generateJsonFromTemplate env path flag w).2.evaluated = w.evaluated ++ [(vm, path)] ∧
      ("fake" ∈ mapKeys vm.nativeFuncs ↔ flag = true) ∧
      vm.nativeFuncs = (if flag then [("fake", createFakeFunction env)] else []) ∧
      (createFakeFunction env).Name = "fake" := by
  refine ⟨evaluationContext env flag, ?_, ?_, ?_, rfl⟩
  · rw [generateJsonFromTemplate_eq]
  · rw [evaluationContext_eq]
    cases flag <;> simp [mapKeys]
  · rw [evaluationContext_eq]

/-- C9: the VM that `generateJsonFromTemplate` hands to the evaluator has
exactly one external variable, `generateTestData`, with the value `"true"` for
the flag true and `"false"` for the flag false. -/
theorem generateJsonFromTemplate_one_external_variable {σ : Type} (env : Env σ)
    (path : String) (flag : Bool) (w : World σ) :
    ∃ vm : VM σ,
      (generateJsonFromTemplate env path flag w).2.evaluated = w.evaluated ++ [(vm, path)] ∧
      vm.ext = [("generateTestData", if flag then "true" else "false")] := by
  refine ⟨evaluationContext env flag, ?_, ?_⟩
  · rw [generateJsonFromTemplate_eq]
  · rw [evaluationContext_eq]

/-! ## The batch resolver -/

/-- The keys after `m[k] = v`. -/
theorem mem_mapKeys_mapSet {α : Type} (m : List (String × α)) (k : String) (v : α) (p : String) :
    p ∈ mapKeys (mapSet m k v) ↔ p ∈ mapKeys m ∨ p = k := by
  simp only [mapKeys, mapSet, List.map_append, List.mem_append, List.mem_map, List.mem_filter,
    List.map_cons, List.map_nil, List.mem_singleton, bne_iff_ne, ne_eq, Prod.exists]
  constructor
  · rintro (⟨a, b, ⟨hm, -⟩, rfl⟩ | h)
    · exact Or.inl ⟨a, b, hm, rfl⟩
    · exact Or.inr h
  · rintro (⟨a, b, hm, rfl⟩ | h)
    · by_cases hk : a = k
      · exact Or.inr hk
      · exact Or.inl ⟨a, b, ⟨hm, hk⟩, rfl⟩
    · exact Or.inr h

/-- A map keeps one entry per key after `m[k] = v`. -/
theorem nodup_mapKeys_mapSet {α : Type} (m : List (String × α)) (k : String) (v : α)
    (h : (mapKeys m).Nodup) : (mapKeys (mapSet m k v)).Nodup := by
  simp only [mapKeys, mapSet, List.map_append, List.map_cons, List.map_nil]
  rw [List.nodup_append]
  refine ⟨?_, List.nodup_singleton k, ?_⟩
  · exact (List.filter_sublist m).map Prod.fst |>.nodup h
  · intro a ha hk
    simp only [List.mem_singleton] at hk
    simp only [List.mem_map, List.mem_filter, bne_iff_ne, ne_eq] at ha
    obtain ⟨e, ⟨-, hne⟩, rfl⟩ := ha
    exact hne hk

/-- Reading `m[p]` after `m[k] = v`. -/
theorem lookup_mapSet {α : Type} (m : List (String × α)) (k : String) (v : α) (p : String) :
    (mapSet m k v).lookup p = if p = k then some v else m.lookup p := by
  unfold mapSet
  induction m with
  | nil =>
    by_cases h : p = k
    · simp [List.lookup, h]
    · have hb : (p == k) = false := by simpa using h
      simp [List.lookup, h, hb]
  | cons e t ih =>
    obtain ⟨a, b⟩ := e
    by_cases ha : a = k
    · subst ha
      have : List.filter (fun e : String × α => e.1 != a) ((a, b) :: t)
          = List.filter (fun e : String × α => e.1 != a) t :=
        List.filter_cons_of_neg (by simp)
      rw [this, ih]
      by_cases hp : p = a
      · simp [hp]
      · have : (p == a) = false := by simpa using hp
        simp [hp, List.lookup, this]
    · have : List.filter (fun e : String × α => e.1 != k) ((a, b) :: t)
          = (a, b) :: List.filter (fun e : String × α => e.1 != k) t :=
        List.filter_cons_of_pos (by simpa using ha)
      rw [this, List.cons_append]
      by_cases hpa : p = a
      · subst hpa
        simp [List.lookup, ha]
      · have h1 : (p == a) = false := by simpa using hpa
        simp only [List.lookup, h1]
        exact ih

/-- The keys of the map after the loop has run over `files`. -/
theorem mem_mapKeys_foldl {σ : Type} (env : Env σ) (flag : Bool) (files : List String)
    (acc : List (String × String) × World σ) (p : String) :
    p ∈ mapKeys (files.foldl (processFile env flag) acc).1 ↔ p ∈ mapKeys acc.1 ∨ p ∈ files := by
  induction files generalizing acc with
  | nil => simp
  | cons f t ih =>
    rw [List.foldl_cons, ih]
    simp only [processFile, mem_mapKeys_mapSet, List.mem_cons]
    tauto

/-- The loop keeps one entry per key. -/
theorem nodup_mapKeys_foldl {σ : Type} (env : Env σ) (flag : Bool) (files : List String)
    (acc : List (String × String) × World σ) (h : (mapKeys acc.1).Nodup) :
    (mapKeys (files.foldl (processFile env flag) acc).1).Nodup := by
  induction files generalizing acc with
  | nil => simpa using h
  | cons f t ih =>
    rw [List.foldl_cons]
    exact ih _ (nodup_mapKeys_mapSet _ _ _ h)

/-- The loop leaves the entry of a file it does not run over as it is. -/
theorem lookup_foldl_of_not_mem {σ : Type} (env : Env σ) (flag : Bool) (files : List String)
    (acc : List (String × String) × World σ) (p : String) (hp : p ∉ files) :
    (files.foldl (processFile env flag) acc).1.lookup p = acc.1.lookup p := by
  induction files generalizing acc with
  | nil => rfl
  | cons f t ih =>
    rw [List.foldl_cons, ih _ (fun h => hp (List.mem_cons_of_mem _ h))]
    simp only [processFile]
    rw [lookup_mapSet, if_neg (by rintro rfl; exact hp (List.mem_cons_self _ _))]

/-- The calls of the evaluator the loop makes: one for each file, in order, on
the configured VM. -/
theorem evaluated_foldl {σ : Type} (env : Env σ) (flag : Bool) (files : List String)
    (acc : List (String × String) × World σ) :
    (files.foldl (processFile env flag) acc).2.evaluated
      = acc.2.evaluated ++ files.map (fun f => (evaluationContext env flag, f)) := by
  induction files generalizing acc with
  | nil => simp
  | cons f t ih =>
    rw [List.foldl_cons, ih]
    simp [processFile, generateJsonFromTemplate_eq]

/-- The number of entries of a map is the number of its keys. -/
theorem length_eq_card_of_keys {α : Type} (m : List (String × α)) (files : List String)
    (hnd : (mapKeys m).Nodup) (hmem : ∀ p, p ∈ mapKeys m ↔ p ∈ files) :
    m.length = files.dedup.length := by
  have h1 : m.length = (mapKeys m).length := by simp [mapKeys]
  rw [h1, ← List.toFinset_card_of_nodup hnd, ← List.card_toFinset]
  congr 1
  ext p
  simp [hmem]

/-- C4: `processMultipleTemplates` returns a non-nil error exactly when
`doublestar.Glob` on `path.Join(root, pattern)` returns one; in that case it
returns that error with a nil map, evaluates no template and leaves the outside
world as it is. -/
theorem processMultipleTemplates_error_iff_glob_fails {σ : Type} (env : Env σ)
    (root pattern : String) (flag : Bool) (w : World σ) :
    ((processMultipleTemplates env root pattern flag w).1.2 ≠ none
      ↔ (env.Glob (env.Join root pattern) w.sys).2 ≠ none) ∧
    (match (env.Glob (env.Join root pattern) w.sys).2 with
     | some globErr =>
       (processMultipleTemplates env root pattern flag w).1 = (none, some globErr) ∧
       (processMultipleTemplates env root pattern flag w).2.evaluated = w.evaluated ∧
       (processMultipleTemplates env root pattern flag w).2.sys = w.sys
     | none => (processMultipleTemplates env root pattern flag w).1.1 ≠ none) := by
  unfold processMultipleTemplates
  simp only [World.Infof]
  cases h : (env.Glob (env.Join root pattern) w.sys).2 with
  | none => simp
  | some e => simp

/-- C3: when `doublestar.Glob` returns the files `files` and no error,
`processMultipleTemplates` returns a nil error and a map with exactly one entry
for each matched path, as many entries as there are distinct matched paths (as
many as `files` has when no path is listed twice). The entry of a path holds
what `generateJsonFromTemplate` returns for it, with the same flag, in the round
of the loop that evaluates it last: the evaluator's text, or the empty string
when the evaluator returns an error. The evaluator is called once for every
file of `files`, in order, whatever the earlier files returned. -/
theorem processMultipleTemplates_one_entry_per_file {σ : Type} (env : Env σ)
    (root pattern : String) (flag : Bool) (w : World σ) (files : List String)
    (hglob : env.Glob (env.Join root pattern) w.sys = (files, none)) :
    ∃ (results : List (String × String)) (vm : VM σ),
      (processMultipleTemplates env root pattern flag w).1 = (some results, none) ∧
      (∀ p, p ∈ mapKeys results ↔ p ∈ files) ∧
      (mapKeys results).Nodup ∧
      results.length = files.dedup.length ∧
      (files.Nodup → results.length = files.length) ∧
      (∀ done p rest, files = done ++ p :: rest → p ∉ rest →
        results.lookup p
          = some (generateJsonFromTemplate env p flag
              (batchWorld env root pattern flag w done)).1 ∧
        (generateJsonFromTemplate env p flag (batchWorld env root pattern flag w done)).1
          = (match (env.EvaluateFile vm p (batchWorld env root pattern flag w done).sys).1.2 with
             | none => (env.EvaluateFile vm p (batchWorld env root pattern flag w done).sys).1.1
             | some _ => "")) ∧
      (processMultipleTemplates env root pattern flag w).2.evaluated
        = w.evaluated ++ files.map (fun f => (vm, f)) := by
  have hsys : (w.Infof ("Processing multiple templates: root=" ++ root ++ ", pattern="
      ++ pattern)).sys = w.sys := rfl
  have hev : (w.Infof ("Processing multiple templates: root=" ++ root ++ ", pattern="
      ++ pattern)).evaluated = w.evaluated := rfl
  generalize hw0 : w.Infof ("Processing multiple templates: root=" ++ root ++ ", pattern="
      ++ pattern) = w0 at hsys hev
  have hrun : processMultipleTemplates env root pattern flag w
      = ((some (files.foldl (processFile env flag) ([], w0)).1, none),
         (files.foldl (processFile env flag) ([], w0)).2) := by
    simp only [processMultipleTemplates, hw0, hsys, hglob]
  have hbatch : ∀ done, batchWorld env root pattern flag w done
      = (done.foldl (processFile env flag) ([], w0)).2 := by
    intro done
    simp only [batchWorld, hw0]
  have hmem : ∀ p, p ∈ mapKeys (files.foldl (processFile env flag) ([], w0)).1 ↔ p ∈ files := by
    intro p
    rw [mem_mapKeys_foldl]
    simp [mapKeys]
  have hnd : (mapKeys (files.foldl (processFile env flag) ([], w0)).1).Nodup :=
    nodup_mapKeys_foldl env flag files _ (by simp [mapKeys])
  have hlen := length_eq_card_of_keys _ files hnd hmem
  refine ⟨(files.foldl (processFile env flag) ([], w0)).1, evaluationContext env flag,
    by rw [hrun], hmem, hnd, hlen, ?_, ?_, ?_⟩
  · intro h
    rw [hlen, h.dedup]
  · intro done p rest hfiles hp
    constructor
    · rw [hfiles, List.foldl_append, List.foldl_cons, lookup_foldl_of_not_mem _ _ _ _ _ hp,
        hbatch]
      simp only [processFile]
      rw [lookup_mapSet, if_pos rfl]
    · rw [generateJsonFromTemplate_eq]
  · rw [hrun]
    simp only
    rw [evaluated_foldl, hev]

/-! ## The mode flag and the output -/

/-- The VM of the flag true and the VM of the flag false differ at most in the
external variable `generateTestData` and in the native function `fake`. -/
theorem sameOutsideMode_evaluationContext {σ : Type} (env : Env σ) :
    sameOutsideMode (evaluationContext env true) (evaluationContext env false) := by
  have hname : (createFakeFunction env).Name = "fake" := rfl
  refine ⟨rfl, ?_, ?_⟩
  · intro name hn
    have hb : (name == "generateTestData") = false := by simpa using hn
    simp [evaluationContext_eq, List.lookup, hb]
  · intro name hn
    have hb : (name == "fake") = false := by simpa using hn
    simp [evaluationContext_eq, List.lookup, hname, hb]

/-- A template that neither reads `generateTestData` nor refers to `fake`
evaluates alike in any two VMs that differ at most in these two, whatever else
it reads from them. -/
theorem eval_modeFree {σ : Type} (vm vm' : VM σ) (hvm : sameOutsideMode vm vm') (t : Template)
    (h : t.modeFree = true) (st : σ) : t.eval vm st = t.eval vm' st := by
  induction t generalizing st with
  | str s => rfl
  | extVar name =>
    have hn : name ≠ "generateTestData" := by simpa [Template.modeFree] using h
    simp only [Template.eval, hvm.2.1 name hn]
  | native name arg iha =>
    simp only [Template.modeFree, Bool.and_eq_true, bne_iff_ne, ne_eq] at h
    simp only [Template.eval, hvm.2.2 name h.1, iha h.2 st]
  | ifEq a b t e iha ihb iht ihe =>
    simp only [Template.modeFree, Bool.and_eq_true] at h
    obtain ⟨⟨⟨ha, hb⟩, ht⟩, he⟩ := h
    simp only [Template.eval]
    rw [iha ha st]
    split
    · rfl
    · rename_i x st1 _
      rw [ihb hb st1]
      split
      · rfl
      · rename_i y st2 _
        rw [iht ht st2, ihe he st2]
  | ifNative name t e iht ihe =>
    simp only [Template.modeFree, Bool.and_eq_true, bne_iff_ne, ne_eq] at h
    obtain ⟨⟨hn, ht⟩, he⟩ := h
    simp only [Template.eval, hvm.2.2 name hn, iht ht st, ihe he st]

/-- On a machine, a file that is missing, broken, or whose template neither
reads `generateTestData` nor refers to `fake` is evaluated without regard to
the mode. -/
theorem modeBlind_of_modeFree (path : String) (m : Machine)
    (hfree : ∀ text t, m.files.lookup path = some (text, some t) → t.modeFree = true) :
    modeBlind Machine.env path m := by
  intro vm vm' hvm
  show Machine.EvaluateFile vm path m = Machine.EvaluateFile vm' path m
  unfold Machine.EvaluateFile
  cases hl : m.files.lookup path with
  | none => rfl
  | some e =>
    obtain ⟨text, ot⟩ := e
    cases ot with
    | none => rfl
    | some t =>
      simp only
      rw [eval_modeFree vm vm' hvm t (hfree text t hl) m]

/-- C7, amended: for every evaluator, path and world, the VM that
`processTemplate` hands to the evaluator under the flag true and the one under
the flag false differ at most in the external variable `generateTestData` and
in the native function `fake`; so whenever the evaluation of the file depends
on neither of the two, `processTemplate` returns the same result under both
flags and leaves the outside world in the same state. -/
theorem processTemplate_same_output_when_mode_blind {σ : Type} (env : Env σ) (path : String)
    (w : World σ) (hblind : modeBlind env path w.sys) :
    ∃ vmTrue vmFalse : VM σ,
      (processTemplate env path true w).2.evaluated = w.evaluated ++ [(vmTrue, path)] ∧
      (processTemplate env path false w).2.evaluated = w.evaluated ++ [(vmFalse, path)] ∧
      sameOutsideMode vmTrue vmFalse ∧
      vmTrue.ext.lookup "generateTestData" = some "true" ∧
      vmFalse.ext.lookup "generateTestData" = some "false" ∧
      (processTemplate env path true w).1 = (processTemplate env path false w).1 ∧
      (processTemplate env path true w).2.sys = (processTemplate env path false w).2.sys := by
  have key := hblind _ _ (sameOutsideMode_evaluationContext env)
  refine ⟨evaluationContext env true, evaluationContext env false, ?_, ?_,
    sameOutsideMode_evaluationContext env, ?_, ?_, ?_, ?_⟩
  · simp only [processTemplate, generateJsonFromTemplate_eq, World.Infof]
  · simp only [processTemplate, generateJsonFromTemplate_eq, World.Infof]
  · rfl
  · rfl
  · simp only [processTemplate, generateJsonFromTemplate_eq, World.Infof, key]
  · simp only [processTemplate, generateJsonFromTemplate_eq, World.Infof, key]

/-! ## The methods on the demonstration machine -/

/-- C3 on the demonstration machine: the pattern `*.jsonnet` under `templates`
matches five files, one of them broken; the map has five entries, the broken
file's entry is the empty string and the files after it are evaluated. -/
theorem processMultipleTemplates_demo :
    ∃ results : List (String × String),
      (processMultipleTemplates Machine.env "templates" "*.jsonnet" true
        (World.start demoMachine)).1 = (some results, none) ∧
      results.length = 5 ∧
      results.lookup "templates/broken.jsonnet" = some "" ∧
      results.lookup "templates/user.jsonnet" = some "\"name\"\n" := by
  obtain ⟨results, vm, h1, -, -, hlen, -, hval, -⟩ :=
    processMultipleTemplates_one_entry_per_file Machine.env "templates" "*.jsonnet" true
      (World.start demoMachine)
      ["templates/broken.jsonnet", "templates/mode.jsonnet", "templates/plain.jsonnet",
        "templates/probe.jsonnet", "templates/user.jsonnet"] rfl
  refine ⟨results, h1, ?_, ?_, ?_⟩
  · rw [hlen]; decide
  · rw [(hval [] "templates/broken.jsonnet"
      ["templates/mode.jsonnet", "templates/plain.jsonnet", "templates/probe.jsonnet",
        "templates/user.jsonnet"]
      rfl (by decide)).1]
    rfl
  · rw [(hval ["templates/broken.jsonnet", "templates/mode.jsonnet", "templates/plain.jsonnet",
        "templates/probe.jsonnet"]
      "templates/user.jsonnet" [] rfl (by decide)).1]
    rfl

/-- C5: on the string `a"`, whose JSON text is `"a\""`, removing exactly one
pair of surrounding quotes gives `a\"`, while the bridge hands the generator
`a\`: `strings.Trim` also removes the quote of the escaped `\"` at the end. So
the pattern is not the JSON text without one pair of quotes for every argument
that serializes. -/
theorem fake_trailing_quote_overstripped :
    Marshal (GoValue.string "a\"") = ("\"a\\\"\"", none) ∧
    stripQuotePair "\"a\\\"\"" = "a\\\"" ∧
    Trim "\"a\\\"\"" "\"" = "a\\" ∧
    ((createFakeFunction Machine.env).Func [GoValue.string "a\""] demoMachine).2.patterns
      = ["a\\"] ∧
    ¬ (∀ v : GoValue, (Marshal v).2 = none →
        Trim (Marshal v).1 "\"" = stripQuotePair (Marshal v).1) := by
  refine ⟨by decide, by decide, by decide, by decide, ?_⟩
  intro h
  have h2 := h (GoValue.string "a\"") (by decide)
  revert h2
  decide

/-- The bridge on the pattern `{firstname}`: the generator receives the pattern
without its quotes. -/
theorem fake_strips_one_quote_pair_demo :
    Trim (Marshal (GoValue.string "{firstname}")).1 "\""
      = stripQuotePair (Marshal (GoValue.string "{firstname}")).1 ∧
    stripQuotePair (Marshal (GoValue.string "{firstname}")).1 = "{firstname}" ∧
    ((createFakeFunction Machine.env).Func [GoValue.string "{firstname}"] demoMachine).2.patterns
      = ["{firstname}"] :=
  ⟨(fake_strips_one_quote_pair Machine.env (GoValue.string "{firstname}") demoMachine
      (by decide) (by intro str h; injection h with h; subst h; decide)).1,
    by decide, by decide⟩

/-- C6 on the input `name`: the generator receives `name`, without quotes. -/
theorem fake_plain_string_demo :
    (createFakeFunction Machine.env).Func [GoValue.string "name"] demoMachine
      = asInterface (Machine.env.Generate "name" demoMachine) ∧
    (Machine.env.Generate "name" demoMachine).2.patterns = ["name"] :=
  ⟨(fake_plain_string_forwards_pattern Machine.env "name" demoMachine (by decide)).2.1,
    by decide⟩

/-- C7 as stated fails on the template `std.extVar('generateTestData')`: it
evaluates under both flags and never calls the generator, and the output is
`"true"` under the flag true and `"false"` under the flag false. The template
`if std.native('fake') != null then 'with' else 'without'` looks the function
up without calling it, and its output differs as well. -/
theorem processTemplate_mode_visible_without_fake :
    (processTemplate Machine.env "templates/mode.jsonnet" true (World.start demoMachine)).1
      = ("\"true\"\n", none) ∧
    (processTemplate Machine.env "templates/mode.jsonnet" false (World.start demoMachine)).1
      = ("\"false\"\n", none) ∧
    (processTemplate Machine.env "templates/mode.jsonnet" true
      (World.start demoMachine)).2.sys.patterns = [] ∧
    (processTemplate Machine.env "templates/mode.jsonnet" false
      (World.start demoMachine)).2.sys.patterns = [] ∧
    (processTemplate Machine.env "templates/mode.jsonnet" true (World.start demoMachine)).1
      ≠ (processTemplate Machine.env "templates/mode.jsonnet" false (World.start demoMachine)).1 ∧
    (processTemplate Machine.env "templates/probe.jsonnet" true (World.start demoMachine)).1
      = ("\"with\"\n", none) ∧
    (processTemplate Machine.env "templates/probe.jsonnet" false (World.start demoMachine)).1
      = ("\"without\"\n", none) ∧
    (processTemplate Machine.env "templates/probe.jsonnet" true
      (World.start demoMachine)).2.sys.patterns = [] := by
  refine ⟨by decide, by decide, by decide, by decide, by decide, by decide, by decide, by decide⟩

/-- C7, amended, on the template of `lib/greeting.jsonnet`, which looks up the
native function `upper` and reads the external variable `name`: both flags
give `"hello"`. The evaluation of `templates/mode.jsonnet`, which reads
`generateTestData`, does depend on the mode. -/
theorem processTemplate_same_output_demo :
    (processTemplate Machine.env "lib/greeting.jsonnet" true (World.start demoMachine)).1
      = (processTemplate Machine.env "lib/greeting.jsonnet" false (World.start demoMachine)).1 ∧
    (processTemplate Machine.env "lib/greeting.jsonnet" false (World.start demoMachine)).1
      = ("\"hello\"\n", none) ∧
    ¬ modeBlind Machine.env "templates/mode.jsonnet" demoMachine := by
  obtain ⟨_, _, _, _, _, _, _, h, _⟩ :=
    processTemplate_same_output_when_mode_blind Machine.env "lib/greeting.jsonnet"
      (World.start demoMachine)
      (modeBlind_of_modeFree "lib/greeting.jsonnet" demoMachine
        (by intro text t h; cases h; decide))
  refine ⟨h, by decide, ?_⟩
  intro hb
  have h2 := hb _ _ (sameOutsideMode_evaluationContext Machine.env)
  revert h2
  decide

/-- C8: the named exports of `Exports` are `processTemplate`, `generateTestData`
and `loadTemplate`; no export has the name `processMultipleTemplates` and no
export is the method `processMultipleTemplates`. -/
theorem Exports_omits_processMultipleTemplates :
    mapKeys Exports.Named = ["processTemplate", "generateTestData", "loadTemplate"] ∧
    Exports.Named.lookup "processMultipleTemplates" = none ∧
    (∀ e ∈ Exports.Named, e.2 ≠ Method.processMultipleTemplates) ∧
    Exports.Default = none := by
  decide

/-- C1 on the demonstration machine: a broken file and a call of `fake` under
the flag false both give the empty string with a nil error, and the failure is
logged; a plain template gives its JSON text. -/
theorem processTemplate_demo :
    (processTemplate Machine.env "templates/broken.jsonnet" false (World.start demoMachine)).1
      = ("", none) ∧
    (processTemplate Machine.env "templates/user.jsonnet" false (World.start demoMachine)).1
      = ("", none) ∧
    (processTemplate Machine.env "templates/user.jsonnet" false (World.start demoMachine)).2.log
      = [⟨Level.info, "Processing template: templates/user.jsonnet, generateTestData: false"⟩,
         ⟨Level.error, "Error evaluating template templates/user.jsonnet: " ++
           "RUNTIME ERROR: Unexpected type null, expected function"⟩] ∧
    (processTemplate Machine.env "templates/user.jsonnet" true (World.start demoMachine)).1
      = ("\"name\"\n", none) ∧
    (processTemplate Machine.env "templates/plain.jsonnet" false (World.start demoMachine)).1
      = ("\"fixed\"\n", none) := by
  decide

/-- C4 on the demonstration machine: the malformed pattern `[` gives the error
of the enumeration and a nil map, and nothing is evaluated. -/
theorem processMultipleTemplates_malformed_demo :
    (processMultipleTemplates Machine.env "templates" "[" true (World.start demoMachine)).1
      = (none, some "syntax error in pattern") ∧
    (processMultipleTemplates Machine.env "templates" "[" true
      (World.start demoMachine)).2.evaluated.length = 0 ∧
    (processMultipleTemplates Machine.env "templates" "[" true (World.start demoMachine)).2.sys
      = demoMachine := by
  decide

end Jsonnet
